import Mathlib

/-!
Verification development for the command-execution engine of pycoreutils
(`src/pycoreux/process_utils.py`): the single-command runner `ProcessUtils.run`
and the pipeline engine `ProcessUtils.pipe` with its helpers
`_create_pipeline`, `_start_first_process`, `_start_middle_process`,
`_start_last_process`, `_execute_pipeline` and `_cleanup_processes`.

The operating system is modelled by explicit oracles: an outcome function for
single-command execution (`subprocess.run`) and per-stage spawn specifications
for `subprocess.Popen`.  Spawned processes live in a `World` (the process
table), recording for each process its command, its stdin wiring, where its
stdout/stderr streams are directed, whether the parent still holds its stdout
pipe end, and whether it has received a termination signal.  The Python local
variables of the engine hold indices into that table, exactly as the Python
locals hold references to `Popen` objects.
-/

namespace PyCoreUx

/-- Python `Union[str, List[str]]`: a command is either a raw string or an
already tokenized argv vector. -/
inductive CommandArg where
  | str (s : String)
  | argv (args : List String)
deriving DecidableEq

/-! ### shlex.split (POSIX mode)

`run` and the pipeline stage starters call `shlex.split` on raw command
strings when `shell` is false.  `shlex` is Python standard library, an
external collaborator of this repository; it is embedded here as a character
state machine implementing POSIX word splitting in the way Python's
`shlex.split` (posix mode, `whitespace_split=True`) does: whitespace separates
tokens; single quotes protect everything up to the matching quote; double
quotes protect everything except a backslash escaping `"` or `\`; outside
quotes a backslash escapes the next character; an unterminated quote or a
trailing escape raises `ValueError`. -/

inductive ShlexMode where
  | normal
  | inSingle
  | inDouble
  | escNormal
  | escDouble
deriving DecidableEq

def isShlexWhitespace (c : Char) : Bool :=
  c = ' ' || c = '\t' || c = '\r' || c = '\n'

def shlexLoop : List Char → ShlexMode → String → Bool → List String →
    Except String (List String)
  | [], m, cur, inTok, acc =>
    match m with
    | .normal => .ok ((if inTok then cur :: acc else acc).reverse)
    | .inSingle => .error "No closing quotation"
    | .inDouble => .error "No closing quotation"
    | .escNormal => .error "No escaped character"
    | .escDouble => .error "No escaped character"
  | c :: rest, m, cur, inTok, acc =>
    match m with
    | .normal =>
      if isShlexWhitespace c then
        shlexLoop rest .normal "" false (if inTok then cur :: acc else acc)
      else if c = '\'' then shlexLoop rest .inSingle cur true acc
      else if c = '"' then shlexLoop rest .inDouble cur true acc
      else if c = '\\' then shlexLoop rest .escNormal cur true acc
      else shlexLoop rest .normal (cur.push c) true acc
    | .inSingle =>
      if c = '\'' then shlexLoop rest .normal cur inTok acc
      else shlexLoop rest .inSingle (cur.push c) inTok acc
    | .inDouble =>
      if c = '"' then shlexLoop rest .normal cur inTok acc
      else if c = '\\' then shlexLoop rest .escDouble cur inTok acc
      else shlexLoop rest .inDouble (cur.push c) inTok acc
    | .escNormal => shlexLoop rest .normal (cur.push c) true acc
    | .escDouble =>
      if c = '"' || c = '\\' then shlexLoop rest .inDouble (cur.push c) inTok acc
      else shlexLoop rest .inDouble ((cur.push '\\').push c) inTok acc

/-- Python `shlex.split(s)` (posix mode). `Except.error` models the
`ValueError` it raises on malformed quoting. -/
def shlex_split (s : String) : Except String (List String) :=
  shlexLoop s.data .normal "" false []

/-! ### str() rendering of commands

`ProcessResult.command` is `str(command)` of the (possibly rebound) command
variable: the string itself for a raw string, and the Python `repr` rendering
of a list of strings for an argv vector. -/

def pyEscape (q : Char) (s : String) : String :=
  String.join (s.data.map (fun c =>
    if c = '\\' then "\\\\"
    else if c = q then "\\" ++ String.singleton q
    else if c = '\n' then "\\n"
    else if c = '\t' then "\\t"
    else if c = '\r' then "\\r"
    else String.singleton c))

/-- Python `repr` of a string: single-quoted, switching to double quotes when
the string contains a single quote but no double quote. -/
def pyReprStr (s : String) : String :=
  if s.contains '\'' && !(s.contains '"') then
    String.singleton '"' ++ pyEscape '"' s ++ String.singleton '"'
  else
    String.singleton '\'' ++ pyEscape '\'' s ++ String.singleton '\''

/-- Python `str(command)`. -/
def pyStr : CommandArg → String
  | .str s => s
  | .argv l => "[" ++ String.intercalate ", " (l.map pyReprStr) ++ "]"

/-! ### ProcessUtils.run -/

/-- `ProcessResult` dataclass of `process_utils.py`. -/
structure ProcessResult where
  stdout : String
  stderr : String
  returncode : Int
  command : String
deriving DecidableEq

/-- The derived `success` property: `returncode == 0`. -/
def ProcessResult.success (r : ProcessResult) : Bool := r.returncode == 0

/-- Outcome of one `subprocess.run` call, as decided by the operating system:
normal completion (stdout/stderr are `none` when not captured, mirroring
Python `None`), `TimeoutExpired` (carrying the output each stream produced
before the forced termination), or any other raised exception with its
`str(e)` description. -/
inductive RunOutcome where
  | completed (stdout stderr : Option String) (returncode : Int)
  | timedOut (pout perr : Option String)
  | failed (errMsg : String)
deriving DecidableEq

def pyShowOptDur {α : Type} (showDur : α → String) : Option α → String
  | none => "None"
  | some t => showDur t

/-- The f-string `f"Command timed out after {timeout} seconds"`. -/
def timeoutMessage {α : Type} (showDur : α → String) (timeout : Option α) :
    String :=
  "Command timed out after " ++ pyShowOptDur showDur timeout ++ " seconds"

/-- `if isinstance(command, str) and not shell: command = shlex.split(command)`
(lines 55-56): the effective command handed to `subprocess.run`.  The
`ValueError` a malformed string raises here is not inside the `try` block and
escapes `run`. -/
def runEffective (command : CommandArg) (shell : Bool) :
    Except String CommandArg :=
  match command, shell with
  | .str s, false => Except.map CommandArg.argv (shlex_split s)
  | c, _ => Except.ok c

/-- `ProcessUtils.run`.  `showDur` renders the timeout duration as Python's
f-string would; `os` is the operating system's behaviour for one
`subprocess.run` invocation (working directory, environment and
`capture_output` forwarding are absorbed into the oracle).  The three result
branches mirror the source: normal completion with `or ""` defaulting,
`TimeoutExpired` keeping `e.stdout or ""` and replacing stderr with the
timeout message and returncode `-1`, and any other exception folded into a
result with empty stdout, `str(e)` as stderr and returncode `-1`. -/
def run {α : Type} (showDur : α → String) (os : CommandArg → Bool → RunOutcome)
    (command : CommandArg) (shell : Bool) (timeout : Option α) :
    Except String ProcessResult :=
  match runEffective command shell with
  | .error e => .error e
  | .ok cmd =>
    match os cmd shell with
    | .completed out err rc =>
      .ok { stdout := out.getD "", stderr := err.getD "", returncode := rc,
            command := pyStr cmd }
    | .timedOut pout _perr =>
      .ok { stdout := pout.getD "",
            stderr := timeoutMessage showDur timeout,
            returncode := -1, command := pyStr cmd }
    | .failed msg =>
      .ok { stdout := "", stderr := msg, returncode := -1,
            command := pyStr cmd }

/-! ### The pipeline world

`pipe` spawns stages with `subprocess.Popen`.  A `Proc` records one spawned
process as the operating system sees it; a `World` is the table of processes
spawned by one `pipe` call, in spawn order.  The Python lists of `Popen`
objects are modelled as lists of indices into that table, so that mutations
(closing the parent's copy of a stdout pipe end, sending a termination
signal) are visible to every holder of the reference. -/

/-- Where a spawned process's output stream is directed: its own capture pipe
(`subprocess.PIPE`), merged into stdout (`subprocess.STDOUT`), or inherited
from the parent (the `Popen` default). -/
inductive StreamDest where
  | piped
  | mergedIntoStdout
  | inherited
deriving DecidableEq

/-- What the operating system has decided a successfully spawned process will
do: its eventual exit code, the data it writes on each stream, and whether a
later `terminate()` call on it raises. -/
structure ProcBehavior where
  returncode : Int
  stdoutData : String
  stderrData : String
  termRaises : Bool
deriving DecidableEq

/-- Outcome of one `subprocess.Popen` spawn attempt for a pipeline stage. -/
inductive SpawnSpec where
  | ok (b : ProcBehavior)
  | raises (msg : String)
deriving DecidableEq

/-- One spawned process in the process table. `stdinFrom` is the index of the
stage whose stdout pipe feeds this process's stdin (`none`: inherited).
`parentHoldsStdout` is whether the parent still holds its own reference to
this process's stdout pipe end; `termSignaled` whether the process has
received a termination signal. -/
structure Proc where
  cmd : CommandArg
  shellMode : Bool
  stdinFrom : Option Nat
  stdoutDest : StreamDest
  stderrDest : StreamDest
  behavior : ProcBehavior
  parentHoldsStdout : Bool
  termSignaled : Bool
deriving DecidableEq

structure World where
  procs : List Proc
deriving DecidableEq

def World.empty : World := { procs := [] }

/-- `subprocess.Popen(cmd, shell=shell, stdin=…, stdout=PIPE, stderr=PIPE)`:
appends a fresh process to the table and returns its index.  On creation the
parent holds the stdout pipe end it just opened. -/
def mkProc (cmd : CommandArg) (shell : Bool) (stdinFrom : Option Nat)
    (b : ProcBehavior) : Proc :=
  { cmd := cmd, shellMode := shell, stdinFrom := stdinFrom,
    stdoutDest := .piped, stderrDest := .piped, behavior := b,
    parentHoldsStdout := true, termSignaled := false }

def popen (w : World) (cmd : CommandArg) (shell : Bool) (stdinFrom : Option Nat)
    (b : ProcBehavior) : World × Nat :=
  ({ procs := w.procs ++ [mkProc cmd shell stdinFrom b] }, w.procs.length)

def modifyAt {β : Type} : List β → Nat → (β → β) → List β
  | [], _, _ => []
  | x :: rest, 0, f => f x :: rest
  | x :: rest, i + 1, f => x :: modifyAt rest i f

/-- `prev_proc.stdout.close()`: the parent releases its reference to process
`i`'s stdout pipe end. -/
def closeStdout (w : World) (i : Nat) : World :=
  { procs := modifyAt w.procs i (fun p => { p with parentHoldsStdout := false }) }

/-- `proc.terminate()` wrapped in `try/except: pass`: the signal is delivered
unless the call raises, and a raise is swallowed either way. -/
def terminateProc (w : World) (i : Nat) : World :=
  { procs := modifyAt w.procs i
      (fun p => if p.behavior.termRaises then p
                else { p with termSignaled := true }) }

/-- `ProcessUtils._cleanup_processes`: best-effort `terminate()` on each
process in the given list, errors swallowed. -/
def cleanupProcesses (idxs : List Nat) (w : World) : World :=
  idxs.foldl terminateProc w

/-- `if not shell: cmd = shlex.split(cmd)` at the head of each stage starter
(lines 143-144, 152-153, 168-169). -/
def tokenizeIfNeeded (shell : Bool) (cmd : String) : Except String CommandArg :=
  if shell then .ok (.str cmd) else Except.map CommandArg.argv (shlex_split cmd)

/-- `ProcessUtils._start_first_process`: spawn with `stdout=PIPE`,
`stderr=PIPE` and inherited stdin.  An error is a raised exception
(`shlex.split` or `Popen`); it creates no process. -/
def startFirstProcess (cmd : String) (shell : Bool) (sp : SpawnSpec)
    (w : World) : Except String (World × Nat) :=
  match tokenizeIfNeeded shell cmd with
  | .error e => .error e
  | .ok c =>
    match sp with
    | .raises msg => .error msg
    | .ok b => .ok (popen w c shell none b)

/-- `ProcessUtils._start_middle_process`: spawn with
`stdin=prev_proc.stdout`, `stdout=PIPE`, `stderr=PIPE`, then
`prev_proc.stdout.close()` in the parent. -/
def startMiddleProcess (cmd : String) (shell : Bool) (prevIdx : Nat)
    (sp : SpawnSpec) (w : World) : Except String (World × Nat) :=
  match tokenizeIfNeeded shell cmd with
  | .error e => .error e
  | .ok c =>
    match sp with
    | .raises msg => .error msg
    | .ok b =>
      match popen w c shell (some prevIdx) b with
      | (w2, i) => .ok (closeStdout w2 prevIdx, i)

/-- `ProcessUtils._start_last_process`: textually the same body as
`_start_middle_process` in the source. -/
def startLastProcess (cmd : String) (shell : Bool) (prevIdx : Nat)
    (sp : SpawnSpec) (w : World) : Except String (World × Nat) :=
  match tokenizeIfNeeded shell cmd with
  | .error e => .error e
  | .ok c =>
    match sp with
    | .raises msg => .error msg
    | .ok b =>
      match popen w c shell (some prevIdx) b with
      | (w2, i) => .ok (closeStdout w2 prevIdx, i)

/-- The `for cmd in commands[1:-1]` loop of `_create_pipeline`: each middle
stage is chained onto `processes[-1]` and appended to the (Python-local)
`processes` list.  `spec k` is the operating system's spawn outcome for the
stage at position `k`.  On a raised exception the world keeps every process
spawned so far, but the partially built Python list is lost with the raise. -/
def chainMiddle (shell : Bool) (spec : Nat → SpawnSpec) :
    List String → Nat → List Nat → World → Except String (List Nat) × World
  | [], _, procs, w => (.ok procs, w)
  | cmd :: rest, k, procs, w =>
    match startMiddleProcess cmd shell (procs.getLast?.getD 0) (spec k) w with
    | .error msg => (.error msg, w)
    | .ok (w2, i) => chainMiddle shell spec rest (k + 1) (procs ++ [i]) w2

/-- `ProcessUtils._create_pipeline`: first stage, then the middles
(`commands[1:-1]`), then — under `if len(commands) > 1` — the last stage
chained onto `processes[-1]`.  Returns the `processes` list on success; a
raised exception loses the partial list while the world keeps the spawned
processes. -/
def createPipeline (commands : List String) (shell : Bool)
    (spec : Nat → SpawnSpec) (w : World) : Except String (List Nat) × World :=
  match commands with
  | [] => (.error "list index out of range", w)
  | c0 :: rest =>
    match startFirstProcess c0 shell (spec 0) w with
    | .error msg => (.error msg, w)
    | .ok (w1, i0) =>
      match chainMiddle shell spec rest.dropLast 1 [i0] w1 with
      | (.error msg, w2) => (.error msg, w2)
      | (.ok procs1, w2) =>
        if rest.isEmpty then (.ok procs1, w2)
        else
          match startLastProcess (rest.getLast?.getD "") shell
              (procs1.getLast?.getD 0) (spec rest.length) w2 with
          | .error msg => (.error msg, w2)
          | .ok (w3, iL) => (.ok (procs1 ++ [iL]), w3)

def defaultProc : Proc :=
  { cmd := .str "", shellMode := true, stdinFrom := none,
    stdoutDest := .piped, stderrDest := .piped,
    behavior := { returncode := 0, stdoutData := "", stderrData := "",
                  termRaises := false },
    parentHoldsStdout := false, termSignaled := false }

/-- `ProcessUtils._execute_pipeline`: `last_proc.communicate()` drains the
terminal stage's stdout and stderr, every process is waited on (reaping
changes nothing observable here), and the result carries the terminal
stage's streams and exit code with the commands joined by `" | "`.
`collectRaises` is the oracle for an exception raised while collecting. -/
def executePipeline (procIdxs : List Nat) (commands : List String)
    (collectRaises : Option String) (w : World) :
    Except String ProcessResult × World :=
  match collectRaises with
  | some msg => (.error msg, w)
  | none =>
    let lastProc := w.procs[procIdxs.getLast?.getD 0]?.getD defaultProc
    (.ok { stdout := lastProc.behavior.stdoutData,
           stderr := lastProc.behavior.stderrData,
           returncode := lastProc.behavior.returncode,
           command := String.intercalate " | " commands }, w)

/-- The operating system's behaviour for one `pipe` call: the
`subprocess.run` oracle for the single-command delegation, the per-stage
spawn outcomes, and whether collecting raises. -/
structure PipeOracle where
  runOracle : CommandArg → Bool → RunOutcome
  spawn : Nat → SpawnSpec
  collectRaises : Option String

/-- `ProcessUtils.pipe`.  An empty list raises `ValueError` (modelled as
`Except.error`, a raised exception escaping to the caller); a singleton
delegates to `run(commands[0], shell=shell)`; otherwise the pipeline is
created and executed inside `try/except`.  Crucially, the Python local
`processes` is bound to `[]` before the `try` and reassigned only by a
completed `_create_pipeline` call, so when creation raises, the partial list
built inside `_create_pipeline` is lost and `_cleanup_processes` receives the
still-empty list. -/
def pipe {α : Type} (showDur : α → String) (o : PipeOracle)
    (commands : List String) (shell : Bool) :
    Except String ProcessResult × World :=
  if commands.isEmpty then
    (.error "At least one command is required", World.empty)
  else if commands.length = 1 then
    (run showDur o.runOracle (.str (commands.headD "")) shell none, World.empty)
  else
    match createPipeline commands shell o.spawn World.empty with
    | (.error msg, w1) =>
      (.ok { stdout := "", stderr := msg, returncode := -1,
             command := String.intercalate " | " commands },
       cleanupProcesses [] w1)
    | (.ok procIdxs, w1) =>
      match executePipeline procIdxs commands o.collectRaises w1 with
      | (.error msg, w2) =>
        (.ok { stdout := "", stderr := msg, returncode := -1,
               command := String.intercalate " | " commands },
         cleanupProcesses procIdxs w2)
      | (.ok res, w2) => (.ok res, w2)

/-! ### Structural lemmas about the process table -/

theorem modifyAt_length {β : Type} (l : List β) (i : Nat) (f : β → β) :
    (modifyAt l i f).length = l.length := by
  induction l generalizing i with
  | nil => rfl
  | cons x rest ih =>
    cases i with
    | zero => rfl
    | succ j => simpa [modifyAt] using ih j

theorem modifyAt_getElem? {β : Type} (l : List β) (i j : Nat) (f : β → β) :
    (modifyAt l i f)[j]? = if j = i then l[j]?.map f else l[j]? := by
  induction l generalizing i j with
  | nil => simp [modifyAt]
  | cons x rest ih =>
    cases i with
    | zero =>
      cases j with
      | zero => simp [modifyAt]
      | succ j' => simp [modifyAt]
    | succ i' =>
      cases j with
      | zero => simp [modifyAt]
      | succ j' => simpa [modifyAt, Nat.succ_eq_add_one] using ih i' j'

theorem range_getLast_getD (n : Nat) (h : 0 < n) :
    (List.range n).getLast?.getD 0 = n - 1 := by
  cases n with
  | zero => omega
  | succ m => simp [List.range_succ]

/-! ### The construction invariant of the pipeline spawner

`PipeInv procs w` relates the Python-local `processes` list (as indices) to
the process table after any prefix of the construction: the list enumerates
every spawned process in spawn order; every stage after the first takes its
stdin from the stdout pipe of the immediately preceding stage; both streams
of every stage are directed to dedicated capture pipes; and the parent has
released its reference to every stdout pipe end it handed to a child — only
the most recently spawned stage's stdout end is still held by the parent. -/

def WorldInv (w : World) : Prop :=
  0 < w.procs.length ∧
  (∀ p ∈ w.procs, p.stdoutDest = StreamDest.piped ∧
    p.stderrDest = StreamDest.piped) ∧
  (∀ i p, w.procs[i + 1]? = some p → p.stdinFrom = some i) ∧
  (∀ p, w.procs[0]? = some p → p.stdinFrom = none) ∧
  (∀ i p, w.procs[i]? = some p → i + 1 < w.procs.length →
    p.parentHoldsStdout = false) ∧
  (∀ p, w.procs.getLast? = some p → p.parentHoldsStdout = true)

def PipeInv (procs : List Nat) (w : World) : Prop :=
  procs = List.range w.procs.length ∧ WorldInv w

theorem startMiddleProcess_ok_elim (cmd : String) (shell : Bool)
    (prevIdx : Nat) (sp : SpawnSpec) (w w2 : World) (i : Nat)
    (h : startMiddleProcess cmd shell prevIdx sp w = .ok (w2, i)) :
    ∃ c b, sp = .ok b ∧
      w2 = closeStdout (popen w c shell (some prevIdx) b).1 prevIdx ∧
      i = w.procs.length := by
  unfold startMiddleProcess at h
  cases htok : tokenizeIfNeeded shell cmd with
  | error e => rw [htok] at h; exact absurd h (by simp)
  | ok c =>
    rw [htok] at h
    cases sp with
    | raises msg => exact absurd h (by simp)
    | ok b =>
      refine ⟨c, b, rfl, ?_, ?_⟩
      · have := h
        simp only [popen, Except.ok.injEq, Prod.mk.injEq] at this
        exact this.1.symm
      · have := h
        simp only [popen, Except.ok.injEq, Prod.mk.injEq] at this
        exact this.2.symm

/-- Spawning one further stage onto the last element of the process list
preserves the construction invariant: the new stage reads the previous
stage's stdout pipe, and the parent's reference to that pipe end is closed
in the same step. -/
theorem startMiddleProcess_step (cmd : String) (shell : Bool) (sp : SpawnSpec)
    (procs : List Nat) (w w2 : World) (i : Nat)
    (hinv : PipeInv procs w)
    (h : startMiddleProcess cmd shell (procs.getLast?.getD 0) sp w =
      .ok (w2, i)) :
    PipeInv (procs ++ [i]) w2 ∧ w2.procs.length = w.procs.length + 1 := by
  obtain ⟨hrange, hpos, hdest, hstdin, hfirst, hclosed, hopen⟩ := hinv
  obtain ⟨c, b, hsp, hw2, hi⟩ :=
    startMiddleProcess_ok_elim cmd shell (procs.getLast?.getD 0) sp w w2 i h
  have hprev : procs.getLast?.getD 0 = w.procs.length - 1 := by
    rw [hrange]; exact range_getLast_getD w.procs.length hpos
  set n := w.procs.length with hn
  rw [hprev] at hw2
  set P : Proc := mkProc c shell (some (n - 1)) b with hP
  have hA : (popen w c shell (some (n - 1)) b).1.procs = w.procs ++ [P] := rfl
  have hlen2 : w2.procs.length = n + 1 := by
    rw [hw2]
    show (modifyAt (w.procs ++ [P]) (n - 1) _).length = n + 1
    rw [modifyAt_length]
    simp
  have hget : ∀ j, w2.procs[j]? =
      if j = n - 1 then
        (w.procs ++ [P])[j]?.map (fun p => { p with parentHoldsStdout := false })
      else (w.procs ++ [P])[j]? := by
    intro j
    rw [hw2]
    show (modifyAt (w.procs ++ [P]) (n - 1) _)[j]? = _
    rw [modifyAt_getElem?]
  have happ_lt : ∀ j, j < n → (w.procs ++ [P])[j]? = w.procs[j]? := by
    intro j hj
    exact List.getElem?_append_left hj
  have happ_eq : (w.procs ++ [P])[n]? = some P := by
    rw [List.getElem?_append_right (Nat.le_refl n)]
    simp
  have happ_gt : ∀ j, n < j → (w.procs ++ [P])[j]? = none := by
    intro j hj
    apply List.getElem?_eq_none
    simp
    omega
  -- a full case description of the processes of the new world
  have hw2get : ∀ j p, w2.procs[j]? = some p →
      (j = n - 1 ∧ ∃ q, w.procs[j]? = some q ∧
        p = { q with parentHoldsStdout := false }) ∨
      (j ≠ n - 1 ∧ j < n ∧ w.procs[j]? = some p) ∨
      (j = n ∧ p = P) := by
    intro j p hp
    rw [hget j] at hp
    by_cases hj : j = n - 1
    · left
      rw [if_pos hj] at hp
      obtain ⟨q, hq, hfq⟩ := Option.map_eq_some'.mp hp
      rw [happ_lt j (by omega)] at hq
      exact ⟨hj, q, hq, hfq.symm⟩
    · right
      rw [if_neg hj] at hp
      rcases Nat.lt_trichotomy j n with hlt | heq | hgt
      · exact Or.inl ⟨hj, hlt, by rw [happ_lt j hlt] at hp; exact hp⟩
      · subst heq
        rw [happ_eq] at hp
        exact Or.inr ⟨rfl, (Option.some.injEq _ _ ▸ hp).symm⟩
      · rw [happ_gt j hgt] at hp
        exact absurd hp (by simp)
  constructor
  · constructor
    · -- the processes list enumerates the table in spawn order
      rw [hlen2, hi, hrange, List.range_succ]
    · refine ⟨by omega, ?_, ?_, ?_, ?_, ?_⟩
      · -- both streams of every stage go to dedicated capture pipes
        intro p hp
        obtain ⟨j, hj⟩ := List.mem_iff_getElem?.mp hp
        rcases hw2get j p hj with ⟨_, q, hq, rfl⟩ | ⟨_, _, hq⟩ | ⟨_, rfl⟩
        · exact hdest q (List.mem_iff_getElem?.mpr ⟨j, hq⟩)
        · exact hdest p (List.mem_iff_getElem?.mpr ⟨j, hq⟩)
        · exact ⟨rfl, rfl⟩
      · -- each later stage reads the immediately preceding stage's stdout
        intro i' p hp
        rcases hw2get (i' + 1) p hp with ⟨_, q, hq, rfl⟩ | ⟨_, _, hq⟩ | ⟨hq, rfl⟩
        · exact hstdin i' q hq
        · exact hstdin i' p hq
        · show some (n - 1) = some i'
          have hni : n - 1 = i' := by omega
          rw [hni]
      · -- the first stage inherits its stdin
        intro p hp
        rcases hw2get 0 p hp with ⟨_, q, hq, rfl⟩ | ⟨_, _, hq⟩ | ⟨hq, rfl⟩
        · exact hfirst q hq
        · exact hfirst p hq
        · omega
      · -- every handed-off stdout pipe end is closed in the parent
        intro j p hp hj
        rcases hw2get j p hp with ⟨_, q, hq, rfl⟩ | ⟨hne, hlt, hq⟩ | ⟨heq, rfl⟩
        · rfl
        · exact hclosed j p hq (by omega)
        · omega
      · -- the parent still holds the newest stage's stdout pipe end
        intro p hp
        rw [List.getLast?_eq_getElem? _, hlen2] at hp
        simp only [Nat.add_sub_cancel] at hp
        rcases hw2get n p hp with ⟨hj, _, _, _⟩ | ⟨_, hlt, _⟩ | ⟨_, rfl⟩
        · omega
        · omega
        · rfl
  · exact hlen2

/-- `_start_last_process` has, in the source, exactly the same body as
`_start_middle_process`. -/
theorem startLastProcess_eq_middle :
    @startLastProcess = @startMiddleProcess := rfl

theorem startFirstProcess_ok_elim (cmd : String) (shell : Bool)
    (sp : SpawnSpec) (w w1 : World) (i0 : Nat)
    (h : startFirstProcess cmd shell sp w = .ok (w1, i0)) :
    ∃ c b, sp = .ok b ∧ w1 = (popen w c shell none b).1 ∧
      i0 = w.procs.length := by
  unfold startFirstProcess at h
  cases htok : tokenizeIfNeeded shell cmd with
  | error e => rw [htok] at h; exact absurd h (by simp)
  | ok c =>
    rw [htok] at h
    cases sp with
    | raises msg => exact absurd h (by simp)
    | ok b =>
      simp only [popen, Except.ok.injEq, Prod.mk.injEq] at h
      exact ⟨c, b, rfl, h.1.symm, h.2.symm⟩

/-- The first spawned stage establishes the construction invariant: one
process in the table, stdin inherited, both streams on capture pipes, the
parent holding its stdout pipe end. -/
theorem startFirstProcess_inv (cmd : String) (shell : Bool) (sp : SpawnSpec)
    (w1 : World) (i0 : Nat)
    (h : startFirstProcess cmd shell sp World.empty = .ok (w1, i0)) :
    i0 = 0 ∧ w1.procs.length = 1 ∧ PipeInv [i0] w1 := by
  obtain ⟨c, b, hsp, hw1, hi0⟩ :=
    startFirstProcess_ok_elim cmd shell sp World.empty w1 i0 h
  have hi0' : i0 = 0 := hi0
  subst hi0'
  have hprocs : w1.procs = [mkProc c shell none b] := by rw [hw1]; rfl
  refine ⟨rfl, by rw [hprocs]; rfl, ?_, ?_⟩
  · rw [hprocs]; rfl
  · refine ⟨by rw [hprocs]; simp, ?_, ?_, ?_, ?_, ?_⟩
    · intro p hp
      rw [hprocs] at hp
      simp only [List.mem_singleton] at hp
      subst hp
      exact ⟨rfl, rfl⟩
    · intro i p hp
      rw [hprocs] at hp
      simp at hp
    · intro p hp
      rw [hprocs] at hp
      simp only [List.getElem?_cons_zero, Option.some.injEq] at hp
      subst hp
      rfl
    · intro i p hp hlt
      rw [hprocs] at hlt
      simp at hlt
    · intro p hp
      rw [hprocs] at hp
      simp only [List.getLast?_singleton, Option.some.injEq] at hp
      subst hp
      rfl

/-- The middle-stage loop of `_create_pipeline` preserves the construction
invariant, growing the table by one process per command. -/
theorem chainMiddle_inv (shell : Bool) (spec : Nat → SpawnSpec)
    (mids : List String) :
    ∀ (k : Nat) (procs : List Nat) (w : World) (procs' : List Nat)
      (w' : World),
    PipeInv procs w →
    chainMiddle shell spec mids k procs w = (.ok procs', w') →
    PipeInv procs' w' ∧
      w'.procs.length = w.procs.length + mids.length := by
  induction mids with
  | nil =>
    intro k procs w procs' w' hinv h
    unfold chainMiddle at h
    simp only [Prod.mk.injEq, Except.ok.injEq] at h
    obtain ⟨h1, h2⟩ := h
    subst h1
    subst h2
    exact ⟨hinv, rfl⟩
  | cons cmd rest ih =>
    intro k procs w procs' w' hinv h
    unfold chainMiddle at h
    cases hm : startMiddleProcess cmd shell (procs.getLast?.getD 0)
        (spec k) w with
    | error msg => rw [hm] at h; simp at h
    | ok wi =>
      obtain ⟨w2, i⟩ := wi
      rw [hm] at h
      have step := startMiddleProcess_step cmd shell (spec k) procs w w2 i
        hinv hm
      have tail := ih (k + 1) (procs ++ [i]) w2 procs' w' step.1 h
      refine ⟨tail.1, ?_⟩
      rw [tail.2, step.2]
      simp only [List.length_cons]
      omega

/-- `_create_pipeline` on two or more commands, starting from an empty
process table, returns (on success) a list enumerating its spawned stages in
spawn order — one per command — and a table satisfying the construction
invariant. -/
theorem createPipeline_inv (commands : List String) (shell : Bool)
    (spec : Nat → SpawnSpec) (idxs : List Nat) (w1 : World)
    (h2 : 2 ≤ commands.length)
    (hc : createPipeline commands shell spec World.empty = (.ok idxs, w1)) :
    PipeInv idxs w1 ∧ w1.procs.length = commands.length := by
  cases commands with
  | nil => simp at h2
  | cons c0 rest =>
    have hrest : rest ≠ [] := by
      intro hr
      subst hr
      simp at h2
    unfold createPipeline at hc
    dsimp only at hc
    cases hf : startFirstProcess c0 shell (spec 0) World.empty with
    | error msg => rw [hf] at hc; simp at hc
    | ok wi =>
      obtain ⟨wA, i0⟩ := wi
      rw [hf] at hc
      dsimp only at hc
      obtain ⟨hi0, hlenA, hinvA⟩ :=
        startFirstProcess_inv c0 shell (spec 0) wA i0 hf
      cases hcm : chainMiddle shell spec rest.dropLast 1 [i0] wA with
      | mk resB wB =>
        rw [hcm] at hc
        cases resB with
        | error msg => simp at hc
        | ok procs1 =>
          dsimp only at hc
          obtain ⟨hinvB, hlenB⟩ :=
            chainMiddle_inv shell spec rest.dropLast 1 [i0] wA procs1 wB
              hinvA hcm
          have hne : rest.isEmpty = false := by
            simpa [List.isEmpty_iff] using hrest
          rw [hne] at hc
          simp only [Bool.false_eq_true, if_false] at hc
          cases hl : startLastProcess (rest.getLast?.getD "") shell
              (procs1.getLast?.getD 0) (spec rest.length) wB with
          | error msg => rw [hl] at hc; simp at hc
          | ok wiL =>
            obtain ⟨wC, iL⟩ := wiL
            rw [hl] at hc
            dsimp only at hc
            simp only [Prod.mk.injEq, Except.ok.injEq] at hc
            obtain ⟨hidxs, hw⟩ := hc
            rw [startLastProcess_eq_middle] at hl
            have step := startMiddleProcess_step (rest.getLast?.getD "")
              shell (spec rest.length) procs1 wB wC iL hinvB hl
            rw [← hidxs, ← hw]
            refine ⟨step.1, ?_⟩
            have hdl : rest.dropLast.length = rest.length - 1 := by
              simp
            have hr1 : 1 ≤ rest.length := by
              cases rest with
              | nil => exact absurd rfl hrest
              | cons x xs => simp
            rw [step.2, hlenB, hlenA]
            simp only [List.length_cons]
            omega

/-! ### Theorems about the single-command runner -/

/-- C3: for every command `c` and shell flag `s`, `pipe([c], shell=s)` is
behaviorally identical to `run(c, shell=s)`: the singleton branch of `pipe`
delegates entirely to the single-command runner (with `run`'s default
timeout), returning the very same `ProcessResult` — hence identical stdout,
stderr, exit code, command description and `success` — and spawning no
pipeline processes. -/
theorem pipe_singleton_delegates_to_run {α : Type} (showDur : α → String)
    (o : PipeOracle) (c : String) (shell : Bool) :
    pipe showDur o [c] shell =
      (run showDur o.runOracle (.str c) shell none, World.empty) := rfl

/-- C5: when a finite timeout is configured and the timeout elapses before
the process exits (the `subprocess.TimeoutExpired` branch: the process has
been forcibly terminated), `run` returns a `ProcessResult` whose exit code
is the sentinel `-1`, whose stderr is the timeout message that includes the
configured duration, and whose stdout preserves the output captured before
the termination. -/
theorem run_timeout_returns_sentinel_and_message {α : Type}
    (showDur : α → String) (os : CommandArg → Bool → RunOutcome)
    (command : CommandArg) (shell : Bool) (t : α) (cmd' : CommandArg)
    (pout perr : Option String)
    (heff : runEffective command shell = .ok cmd')
    (hto : os cmd' shell = .timedOut pout perr) :
    run showDur os command shell (some t) =
      .ok { stdout := pout.getD "",
            stderr := "Command timed out after " ++ showDur t ++ " seconds",
            returncode := -1, command := pyStr cmd' } := by
  unfold run
  rw [heff]
  dsimp only
  rw [hto]
  rfl

def showNat (n : Nat) : String := toString n

def c5Os : CommandArg → Bool → RunOutcome :=
  fun _ _ => .timedOut (some "tick tick ") none

theorem run_timeout_returns_sentinel_and_message_witness :
    run showNat c5Os (.str "sleep 10") true (some 5) =
      .ok { stdout := "tick tick ",
            stderr := "Command timed out after 5 seconds",
            returncode := -1, command := "sleep 10" } :=
  run_timeout_returns_sentinel_and_message showNat c5Os (.str "sleep 10")
    true 5 (.str "sleep 10") (some "tick tick ") none rfl rfl

/-- C6: when the spawn fails for any reason other than a timeout (the
generic `except Exception` branch — binary not found, permission denied,
…), `run` returns (rather than raising) a `ProcessResult` with exit code
`-1`, empty stdout, and stderr set to the failure's description `str(e)`. -/
theorem run_spawn_failure_folded_into_result {α : Type}
    (showDur : α → String) (os : CommandArg → Bool → RunOutcome)
    (command : CommandArg) (shell : Bool) (timeout : Option α)
    (cmd' : CommandArg) (msg : String)
    (heff : runEffective command shell = .ok cmd')
    (hf : os cmd' shell = .failed msg) :
    run showDur os command shell timeout =
      .ok { stdout := "", stderr := msg, returncode := -1,
            command := pyStr cmd' } := by
  unfold run
  rw [heff]
  dsimp only
  rw [hf]

def c6Os : CommandArg → Bool → RunOutcome :=
  fun _ _ => .failed "[Errno 2] No such file or directory: nonexistent-binary"

theorem run_spawn_failure_folded_into_result_witness :
    run showNat c6Os (.str "nonexistent-binary --flag") true none =
      .ok { stdout := "",
            stderr := "[Errno 2] No such file or directory: nonexistent-binary",
            returncode := -1, command := "nonexistent-binary --flag" } :=
  run_spawn_failure_folded_into_result showNat c6Os
    (.str "nonexistent-binary --flag") true none
    (.str "nonexistent-binary --flag")
    "[Errno 2] No such file or directory: nonexistent-binary" rfl rfl

/-- C8: with `shell = false` and a raw string command, the string is first
tokenized by the POSIX word-splitting rules of `shlex.split` (quoting and
escaping honored) and only then executed as an argv vector: the effective
command handed to the spawn — both in `run` and in the pipeline stage
starters via `tokenizeIfNeeded` — is the tokenized vector, and running the
raw string is indistinguishable from running the pre-tokenized vector. -/
theorem run_tokenizes_raw_string_posix {α : Type} (showDur : α → String)
    (os : CommandArg → Bool → RunOutcome) (s : String) (timeout : Option α)
    (args : List String) (hs : shlex_split s = .ok args) :
    runEffective (.str s) false = .ok (.argv args) ∧
    tokenizeIfNeeded false s = .ok (.argv args) ∧
    run showDur os (.str s) false timeout =
      run showDur os (.argv args) false timeout := by
  have h1 : runEffective (.str s) false = .ok (.argv args) := by
    show Except.map CommandArg.argv (shlex_split s) = _
    rw [hs]
    rfl
  have h2 : tokenizeIfNeeded false s = .ok (.argv args) := by
    show Except.map CommandArg.argv (shlex_split s) = _
    rw [hs]
    rfl
  refine ⟨h1, h2, ?_⟩
  unfold run
  rw [h1]
  rfl

def c8Os : CommandArg → Bool → RunOutcome :=
  fun _ _ => .completed (some "matches") none 0

theorem run_tokenizes_raw_string_posix_witness :
    runEffective (.str "grep -F \"a b\" file.txt") false =
      .ok (.argv ["grep", "-F", "a b", "file.txt"]) ∧
    tokenizeIfNeeded false "grep -F \"a b\" file.txt" =
      .ok (.argv ["grep", "-F", "a b", "file.txt"]) ∧
    run showNat c8Os (.str "grep -F \"a b\" file.txt") false none =
      run showNat c8Os (.argv ["grep", "-F", "a b", "file.txt"]) false none :=
  run_tokenizes_raw_string_posix showNat c8Os "grep -F \"a b\" file.txt"
    none ["grep", "-F", "a b", "file.txt"] rfl

/-- C10 (implicit): when a `run` call ends in a timeout, the returned stderr
is solely the engine's timeout message: the stderr text the child produced
before termination (`e.stderr` of `TimeoutExpired`) is discarded — two
operating systems whose timed-out children wrote different stderr yield the
very same result — while the stdout prefix captured before termination is
kept. -/
theorem run_timeout_discards_child_stderr {α : Type} (showDur : α → String)
    (os1 os2 : CommandArg → Bool → RunOutcome) (command : CommandArg)
    (shell : Bool) (timeout : Option α) (cmd' : CommandArg)
    (pout perr1 perr2 : Option String)
    (heff : runEffective command shell = .ok cmd')
    (h1 : os1 cmd' shell = .timedOut pout perr1)
    (h2 : os2 cmd' shell = .timedOut pout perr2) :
    run showDur os1 command shell timeout =
      run showDur os2 command shell timeout ∧
    run showDur os1 command shell timeout =
      .ok { stdout := pout.getD "",
            stderr := timeoutMessage showDur timeout,
            returncode := -1, command := pyStr cmd' } := by
  unfold run
  rw [heff]
  dsimp only
  rw [h1, h2]
  exact ⟨rfl, rfl⟩

def c10OsA : CommandArg → Bool → RunOutcome :=
  fun _ _ => .timedOut (some "kept prefix") (some "child diagnostics, discarded")

def c10OsB : CommandArg → Bool → RunOutcome :=
  fun _ _ => .timedOut (some "kept prefix") none

theorem run_timeout_discards_child_stderr_witness :
    run showNat c10OsA (.str "slow-task") true (some 2) =
      run showNat c10OsB (.str "slow-task") true (some 2) ∧
    run showNat c10OsA (.str "slow-task") true (some 2) =
      .ok { stdout := "kept prefix",
            stderr := timeoutMessage showNat (some 2),
            returncode := -1, command := "slow-task" } :=
  run_timeout_discards_child_stderr showNat c10OsA c10OsB (.str "slow-task")
    true (some 2) (.str "slow-task") (some "kept prefix")
    (some "child diagnostics, discarded") none rfl rfl rfl

/-! ### Theorems about the pipeline engine -/

/-- C7: `pipe` applied to an empty command list raises a `ValueError`
(Python's invalid-argument error) synchronously to the caller — the left
branch of `Except` models the raised exception, so no `ProcessResult` (empty,
successful or otherwise) is produced and nothing is folded into a result. -/
theorem pipe_empty_raises_value_error {α : Type} (showDur : α → String)
    (o : PipeOracle) (shell : Bool) :
    pipe showDur o [] shell =
      (.error "At least one command is required", World.empty) := rfl

/-- C2 is contradicted by the code: the oracle below spawns the first stage
of a three-command pipeline successfully and raises on the second spawn (a
nonexistent binary).  `pipe` does fold the error into a single result with
exit code `-1` and the error description as stderr, but the process table
after the call shows exactly one spawned stage that never received a
termination signal: `_create_pipeline` raised before its return value could
be assigned, so `pipe`'s local `processes` list was still empty when
`_cleanup_processes` ran, and the already-spawned first stage is leaked. -/
def c2Oracle : PipeOracle :=
  { runOracle := fun _ _ => .failed "unused",
    spawn := fun i =>
      if i = 1 then
        .raises "No such file or directory: definitely-missing-binary"
      else
        .ok { returncode := 0, stdoutData := "hi", stderrData := "",
              termRaises := false },
    collectRaises := none }

def c2Commands : List String := ["echo hi", "definitely-missing-binary", "cat"]

theorem pipe_spawn_failure_leaks_spawned_stage :
    (pipe showNat c2Oracle c2Commands true).1 =
      .ok { stdout := "",
            stderr := "No such file or directory: definitely-missing-binary",
            returncode := -1,
            command := "echo hi | definitely-missing-binary | cat" } ∧
    (pipe showNat c2Oracle c2Commands true).2.procs.map
        (fun p => p.termSignaled) = [false] := by
  constructor
  · rfl
  · rfl

/-- Successful two-or-more-stage path of `pipe`: creation succeeded, the
collector did not raise, so the single returned result is built from the
terminal (last-spawned) stage. -/
theorem pipe_success_eq {A : Type} (showDur : A -> String) (o : PipeOracle)
    (commands : List String) (shell : Bool) (idxs : List Nat) (w1 : World)
    (pL : Proc)
    (h2 : 2 <= commands.length)
    (hc : createPipeline commands shell o.spawn World.empty = (.ok idxs, w1))
    (hcol : o.collectRaises = none)
    (hrange : idxs = List.range w1.procs.length)
    (hpos : 0 < w1.procs.length)
    (hpL : w1.procs.getLast? = some pL) :
    pipe showDur o commands shell =
      (.ok { stdout := pL.behavior.stdoutData,
             stderr := pL.behavior.stderrData,
             returncode := pL.behavior.returncode,
             command := String.intercalate " | " commands }, w1) := by
  have hne : commands.isEmpty = false := by
    cases commands with
    | nil => simp at h2
    | cons a l => rfl
  have hlen1 : commands.length = 1 -> False := by omega
  unfold pipe
  rw [hne]
  simp only [Bool.false_eq_true, if_false]
  rw [if_neg hlen1]
  rw [hc]
  dsimp only
  unfold executePipeline
  rw [hcol]
  dsimp only
  have hidx : idxs.getLast?.getD 0 = w1.procs.length - 1 := by
    rw [hrange]
    exact range_getLast_getD _ hpos
  rw [hidx]
  have hgl : w1.procs[w1.procs.length - 1]? = some pL := by
    rw [<- List.getLast?_eq_getElem? w1.procs]
    exact hpL
  rw [hgl]
  rfl

/-- C1: for every pipeline of two or more commands whose stages all spawn
and whose collection raises no exception, `pipe` returns exactly one
result (the single `ProcessResult` of the success branch), whose exit code
equals the terminal stage's exit code — the behaviour of every earlier
stage, failing or not, is unconstrained here — and whose command
description is the commands joined with the pipe-separator token
`" | "`. -/
theorem pipe_returns_terminal_stage_exit_code {A : Type}
    (showDur : A -> String) (o : PipeOracle) (commands : List String)
    (shell : Bool) (idxs : List Nat) (w1 : World)
    (h2 : 2 <= commands.length)
    (hc : createPipeline commands shell o.spawn World.empty = (.ok idxs, w1))
    (hcol : o.collectRaises = none) :
    ∃ pL, w1.procs.getLast? = some pL ∧
      pipe showDur o commands shell =
        (.ok { stdout := pL.behavior.stdoutData,
               stderr := pL.behavior.stderrData,
               returncode := pL.behavior.returncode,
               command := String.intercalate " | " commands }, w1) := by
  obtain ⟨⟨hrange, hwinv⟩, hlen⟩ :=
    createPipeline_inv commands shell o.spawn idxs w1 h2 hc
  have hpos : 0 < w1.procs.length := hwinv.1
  obtain ⟨pL, hpL⟩ : ∃ pL, w1.procs.getLast? = some pL := by
    rw [List.getLast?_eq_getElem? w1.procs]
    exact ⟨w1.procs[w1.procs.length - 1], List.getElem?_eq_getElem (by omega)⟩
  exact ⟨pL, hpL, pipe_success_eq showDur o commands shell idxs w1 pL h2 hc
    hcol hrange hpos hpL⟩

def c149Oracle : PipeOracle :=
  { runOracle := fun _ _ => .failed "unused",
    spawn := fun i =>
      .ok { returncode := if i = 0 then 2 else 0,
            stdoutData := "stage " ++ toString i ++ " out",
            stderrData := "stage " ++ toString i ++ " diag",
            termRaises := false },
    collectRaises := none }

def c149Commands : List String := ["cat data.txt", "sort", "head -n 2"]

def c149W : World :=
  (createPipeline c149Commands true c149Oracle.spawn World.empty).2

theorem pipe_returns_terminal_stage_exit_code_witness :
    ∃ pL, c149W.procs.getLast? = some pL ∧
      pipe showNat c149Oracle c149Commands true =
        (.ok { stdout := pL.behavior.stdoutData,
               stderr := pL.behavior.stderrData,
               returncode := pL.behavior.returncode,
               command := String.intercalate " | " c149Commands }, c149W) :=
  pipe_returns_terminal_stage_exit_code showNat c149Oracle c149Commands true
    [0, 1, 2] c149W (by decide) rfl rfl

/-- C4: in a pipeline of three or more commands (all spawned, collection
exception-free), every stage's stderr — in particular every intermediate
stage's — is directed to its own capture pipe (`stderr=subprocess.PIPE`),
separate from the stdout pipe that feeds the next stage's stdin, so the
diagnostics written there are retained, unread and unmerged, in the
per-stage capture buffers of the final state, even though the returned
result surfaces only the terminal stage's stderr. -/
theorem pipe_intermediate_stderr_captured {A : Type} (showDur : A -> String)
    (o : PipeOracle) (commands : List String) (shell : Bool)
    (idxs : List Nat) (w1 : World)
    (h3 : 3 <= commands.length)
    (hc : createPipeline commands shell o.spawn World.empty = (.ok idxs, w1))
    (hcol : o.collectRaises = none) :
    ∃ r, pipe showDur o commands shell = (.ok r, w1) ∧
      w1.procs.length = commands.length ∧
      (∀ p ∈ w1.procs, p.stderrDest = StreamDest.piped) ∧
      (∀ i p, w1.procs[i + 1]? = some p -> p.stdinFrom = some i) ∧
      (∀ pL, w1.procs.getLast? = some pL ->
        r.stderr = pL.behavior.stderrData) ∧
      (∀ i, i + 1 < commands.length ->
        (pipe showDur o commands shell).2.procs[i]? = w1.procs[i]?) := by
  have h2 : 2 <= commands.length := by omega
  obtain ⟨⟨hrange, hwinv⟩, hlen⟩ :=
    createPipeline_inv commands shell o.spawn idxs w1 h2 hc
  have hpos : 0 < w1.procs.length := hwinv.1
  obtain ⟨pL, hpL⟩ : ∃ pL, w1.procs.getLast? = some pL := by
    rw [List.getLast?_eq_getElem? w1.procs]
    exact ⟨w1.procs[w1.procs.length - 1], List.getElem?_eq_getElem (by omega)⟩
  have heq := pipe_success_eq showDur o commands shell idxs w1 pL h2 hc hcol
    hrange hpos hpL
  refine ⟨_, heq, hlen, ?_, ?_, ?_, ?_⟩
  · intro p hp
    exact (hwinv.2.1 p hp).2
  · exact hwinv.2.2.1
  · intro pL' hpL'
    rw [hpL] at hpL'
    cases hpL'
    rfl
  · intro i hi
    rw [heq]

theorem pipe_intermediate_stderr_captured_witness :
    ∃ r, pipe showNat c149Oracle c149Commands true = (.ok r, c149W) ∧
      c149W.procs.length = c149Commands.length ∧
      (∀ p ∈ c149W.procs, p.stderrDest = StreamDest.piped) ∧
      (∀ i p, c149W.procs[i + 1]? = some p -> p.stdinFrom = some i) ∧
      (∀ pL, c149W.procs.getLast? = some pL ->
        r.stderr = pL.behavior.stderrData) ∧
      (∀ i, i + 1 < c149Commands.length ->
        (pipe showNat c149Oracle c149Commands true).2.procs[i]? =
          c149W.procs[i]?) :=
  pipe_intermediate_stderr_captured showNat c149Oracle c149Commands true
    [0, 1, 2] c149W (by decide) rfl rfl

/-- C9: after constructing a pipeline of two or more commands, every stage
after the first reads its stdin from the stdout pipe of the immediately
preceding stage (the first stage's stdin is inherited, wired to nothing),
and the parent has closed its own reference to every stdout pipe end it
handed to a child — only the terminal stage's stdout end, which the
collector will drain, is still held by the parent.  Each handoff and close
happens inside the single `_start_middle_process`/`_start_last_process`
step that spawns the consuming stage, so the exclusive-ownership invariant
holds at every point of the construction (`startMiddleProcess_step` is
exactly that per-step preservation). -/
theorem pipeline_pipe_end_ownership (o : PipeOracle)
    (commands : List String) (shell : Bool)
    (idxs : List Nat) (w1 : World)
    (h2 : 2 <= commands.length)
    (hc : createPipeline commands shell o.spawn World.empty = (.ok idxs, w1)) :
    (∀ i p, w1.procs[i + 1]? = some p -> p.stdinFrom = some i) ∧
    (∀ p, w1.procs[0]? = some p -> p.stdinFrom = none) ∧
    (∀ i p, w1.procs[i]? = some p -> i + 1 < w1.procs.length ->
      p.parentHoldsStdout = false) ∧
    (∀ p, w1.procs.getLast? = some p -> p.parentHoldsStdout = true) := by
  obtain ⟨⟨hrange, hpos, hdest, hstdin, hfirst, hclosed, hopen⟩, hlen⟩ :=
    createPipeline_inv commands shell o.spawn idxs w1 h2 hc
  exact ⟨hstdin, hfirst, hclosed, hopen⟩

theorem pipeline_pipe_end_ownership_witness :
    (∀ i p, c149W.procs[i + 1]? = some p -> p.stdinFrom = some i) ∧
    (∀ p, c149W.procs[0]? = some p -> p.stdinFrom = none) ∧
    (∀ i p, c149W.procs[i]? = some p -> i + 1 < c149W.procs.length ->
      p.parentHoldsStdout = false) ∧
    (∀ p, c149W.procs.getLast? = some p -> p.parentHoldsStdout = true) :=
  pipeline_pipe_end_ownership c149Oracle c149Commands true
    [0, 1, 2] c149W (by decide) rfl

end PyCoreUx

